import Mathlib

/-
Verification development for the ECToolkits dielectric-constant workflow
(src/ectoolkits/workflows/calc_diel.py).

Modelling conventions:
* CP2K input dictionaries (as produced by the external cp2k_input_tools
  parser) are modelled by the inductive type `CVal`; a Python dict is an
  association list whose assignment `d[k] = v` is `setKey` (updating an
  existing key keeps its position, a new key is appended at the end, exactly
  as CPython dicts behave) and whose lookup is `getKey`.
* Python runtime failures are explicit: `PyErr` distinguishes KeyError,
  TypeError, IndexError, AssertionError and UnboundLocalError.
* Filesystem paths are modelled as component lists (`List String`), matching
  pathlib.Path semantics: `/`-joining is list append and `.name` is the last
  component.  Filesystem side effects are recorded as an explicit `Effect`
  trace instead of being performed.
* Machine floats are modelled by exact rationals `ℚ`; `np.pi` is an explicit
  real parameter of the functions that use it.
* External collaborators (the cp2kdata output parsers, the contents of the
  file system, the `au2A` unit constant) are parameters of the functions
  that consume them.
-/

namespace ECT

/-- Structured values of a parsed CP2K input tree (the data produced by the
external `CP2KInputParser`): strings, booleans, numbers, numeric vectors,
nested section dictionaries and repeated-section lists. -/
inductive CVal where
  | str (s : String)
  | bool (b : Bool)
  | num (q : ℚ)
  | vec (l : List ℚ)
  | obj (entries : List (String × CVal))
  | arr (elems : List CVal)

/-- A Python dict of CP2K input data, as an association list. -/
abbrev Dict := List (String × CVal)

/-- The Python exceptions the translated code can raise. -/
inductive PyErr where
  | keyError
  | typeError
  | indexError
  | assertionError
  | unboundLocalError
  deriving DecidableEq, Repr

/-- Python dict lookup `d[k]` (first binding wins; bindings are unique in
parsed input anyway). -/
def getKey : Dict → String → Option CVal
  | [], _ => none
  | (k', v) :: rest, k => if k' = k then some v else getKey rest k

/-- Python dict assignment `d[k] = v`: replace in place if the key exists
(keeping its position), otherwise append the new binding at the end. -/
def setKey : Dict → String → CVal → Dict
  | [], k, v => [(k, v)]
  | (k', v') :: rest, k, v =>
      if k' = k then (k, v) :: rest else (k', v') :: setKey rest k v

@[simp]
theorem getKey_nil (k : String) : getKey [] k = none := rfl

@[simp]
theorem getKey_cons (k' k : String) (v : CVal) (t : Dict) :
    getKey ((k', v) :: t) k = if k' = k then some v else getKey t k := rfl

@[simp]
theorem setKey_nil (k : String) (v : CVal) : setKey [] k v = [(k, v)] := rfl

@[simp]
theorem setKey_cons (k' k : String) (v' v : CVal) (t : Dict) :
    setKey ((k', v') :: t) k v =
      if k' = k then (k, v) :: t else (k', v') :: setKey t k v := rfl

@[simp]
theorem getKey_setKey_self (d : Dict) (k : String) (v : CVal) :
    getKey (setKey d k v) k = some v := by
  induction d with
  | nil => simp
  | cons h t ih =>
    obtain ⟨k', v'⟩ := h
    by_cases hk : k' = k
    · subst hk; simp
    · simp [hk, ih]

theorem getKey_setKey_ne (d : Dict) (k k' : String) (v : CVal) (h : k' ≠ k) :
    getKey (setKey d k v) k' = getKey d k' := by
  induction d with
  | nil => simp [Ne.symm h]
  | cons hd t ih =>
    obtain ⟨k'', v''⟩ := hd
    by_cases hk : k'' = k
    · subst hk; simp [Ne.symm h, h]
    · by_cases hk' : k'' = k'
      · subst hk'; simp [hk]
      · simp [hk, hk', ih]

@[simp]
theorem setKey_setKey_self (d : Dict) (k : String) (v w : CVal) :
    setKey (setKey d k v) k w = setKey d k w := by
  induction d with
  | nil => simp
  | cons h t ih =>
    obtain ⟨k', v'⟩ := h
    by_cases hk : k' = k
    · subst hk; simp
    · simp [hk, ih]

/-- Python `len(d[k])` for a key expected to hold a repeated-section list:
KeyError if the key is missing, TypeError if it does not hold a list. -/
def pyLen (d : Dict) (k : String) : Except PyErr Nat :=
  match getKey d k with
  | some (CVal.arr l) => Except.ok l.length
  | some _ => Except.error PyErr.typeError
  | none => Except.error PyErr.keyError

/-- Module constant `DIPOLE_MOMENT_FILE = "moments.dat"`. -/
def DIPOLE_MOMENT_FILE : String := "moments.dat"

/-- Module constant `CP2K_LOG_FILE = "cp2k.log"`. -/
def CP2K_LOG_FILE : String := "cp2k.log"

/-- Module constant `debey2au = 4.26133088E-01/1.08312217E+00` (unused by the
workflow, kept for completeness; the float literals are modelled exactly). -/
def debey2au : ℚ := (426133088 / 1000000000) / (108312217 / 100000000)

/-- Round-half-even of the fraction `n / d` of natural numbers (`d ≠ 0` in all
uses): the rounding Python applies when formatting a value to a fixed number
of decimal places.  Implemented on numerator and denominator directly. -/
def roundHalfEvenN (n d : Nat) : Nat :=
  let m := n / d
  let r := n % d
  if 2 * r < d then m
  else if d < 2 * r then m + 1
  else if m % 2 = 0 then m else m + 1

/-- Zero-pad a digit string on the left to six characters. -/
def pad6 (s : String) : String :=
  String.mk (List.replicate (6 - s.length) '0') ++ s

/-- Python fixed-point formatting `f"{intensity:7.6f}"` of an exact rational:
six digits after the decimal point, rounded half-even, sign then magnitude.
The minimum field width 7 never triggers padding because the shortest
possible rendering `0.000000` is already eight characters wide, so it is not
modelled. -/
def format6f (q : ℚ) : String :=
  let n := q.num.natAbs * 1000000
  let r := roundHalfEvenN n q.den
  let ip := r / 1000000
  let fp := r % 1000000
  (if q.num < 0 then "-" else "") ++ toString ip ++ "." ++ pad6 (toString fp)

/-- The working-directory name `f"efield_{intensity:7.6f}"` generated for one
sweep intensity. -/
def nameOf (i : ℚ) : String := "efield_" ++ format6f i

/-- Filesystem side effects performed by the workflow, recorded as a trace.
Paths are pathlib-style component lists. -/
inductive Effect where
  | mkdir (dir : List String)
  | writeInput (file : List String) (content : Dict)
  | copyTo (src : List String) (dst : List String)
  | savetxt (file : String)

/-- Translation of `copy_file_list`: each file (or directory) `f` in the list
is copied to `target_dir / f.name` (pathlib `.name` is the last path
component). -/
def copy_file_list (file_list : List (List String)) (target_dir : List String) :
    List Effect :=
  file_list.map (fun f => Effect.copyTo f (target_dir ++ [f.getLastD ""]))

/-- Python nested mutation `d[k][...] = ...` through a key that must hold a
sub-dictionary: KeyError if `k` is missing, TypeError if it holds a
non-dict, otherwise the sub-dictionary is rewritten in place. -/
def updKeyObj (d : Dict) (k : String) (f : Dict → Except PyErr Dict) :
    Except PyErr Dict :=
  match getKey d k with
  | some (CVal.obj sub) =>
      match f sub with
      | Except.ok sub' => Except.ok (setKey d k (CVal.obj sub'))
      | Except.error e => Except.error e
  | some _ => Except.error PyErr.typeError
  | none => Except.error PyErr.keyError

/-- Python nested mutation `input_dict['+force_eval'][0]['+dft'][...] = ...`:
navigates to the `+dft` sub-dictionary of the first FORCE_EVAL block and
rewrites it, raising the corresponding Python error when a step fails. -/
def updFe0Dft (d : Dict) (f : Dict → Except PyErr Dict) : Except PyErr Dict :=
  match getKey d "+force_eval" with
  | some (CVal.arr (CVal.obj fe0 :: rest)) =>
      match getKey fe0 "+dft" with
      | some (CVal.obj dft) =>
          match f dft with
          | Except.ok dft' =>
              Except.ok (setKey d "+force_eval"
                (CVal.arr (CVal.obj (setKey fe0 "+dft" (CVal.obj dft')) :: rest)))
          | Except.error e => Except.error e
      | some _ => Except.error PyErr.typeError
      | none => Except.error PyErr.keyError
  | some (CVal.arr (_ :: _)) => Except.error PyErr.typeError
  | some (CVal.arr []) => Except.error PyErr.indexError
  | some _ => Except.error PyErr.typeError
  | none => Except.error PyErr.keyError

/-- Translation of `add_efield_input` (lines 88-104): assert exactly one
FORCE_EVAL, then assign the `+periodic_efield` block key by key exactly as
the source's five assignment statements do. -/
def add_efield_input (input_dict : Dict) (intensity : ℚ)
    (displacement_field : Bool) (polarisation : List ℚ) (d_filter : List ℚ) :
    Except PyErr Dict :=
  match pyLen input_dict "+force_eval" with
  | Except.error e => Except.error e
  | Except.ok n =>
    if n = 1 then
      match updFe0Dft input_dict
          (fun dft => Except.ok (setKey dft "+periodic_efield" (CVal.obj []))) with
      | Except.error e => Except.error e
      | Except.ok d1 =>
        match updFe0Dft d1 (fun dft => updKeyObj dft "+periodic_efield"
            (fun pe => Except.ok (setKey pe "intensity" (CVal.num intensity)))) with
        | Except.error e => Except.error e
        | Except.ok d2 =>
          match updFe0Dft d2 (fun dft => updKeyObj dft "+periodic_efield"
              (fun pe => Except.ok (setKey pe "displacement_field"
                (CVal.bool displacement_field)))) with
          | Except.error e => Except.error e
          | Except.ok d3 =>
            match updFe0Dft d3 (fun dft => updKeyObj dft "+periodic_efield"
                (fun pe => Except.ok (setKey pe "polarisation"
                  (CVal.vec polarisation)))) with
            | Except.error e => Except.error e
            | Except.ok d4 =>
              match updFe0Dft d4 (fun dft => updKeyObj dft "+periodic_efield"
                  (fun pe => Except.ok (setKey pe "d_filter"
                    (CVal.vec d_filter)))) with
              | Except.error e => Except.error e
              | Except.ok d5 => Except.ok d5
    else Except.error PyErr.assertionError

/-- Translation of `add_print_moments` (lines 106-118): assert exactly one
FORCE_EVAL, then set `+print` to a fresh `{+moments: {}}` block and fill in
`periodic` and `filename`. -/
def add_print_moments (input_dict : Dict) (periodic : Bool) (filename : String) :
    Except PyErr Dict :=
  match pyLen input_dict "+force_eval" with
  | Except.error e => Except.error e
  | Except.ok n =>
    if n = 1 then
      match updFe0Dft input_dict (fun dft => Except.ok
          (setKey dft "+print" (CVal.obj [("+moments", CVal.obj [])]))) with
      | Except.error e => Except.error e
      | Except.ok d1 =>
        match updFe0Dft d1 (fun dft => updKeyObj dft "+print"
            (fun pr => updKeyObj pr "+moments" (fun m => Except.ok
              (setKey m "periodic" (CVal.bool periodic))))) with
        | Except.error e => Except.error e
        | Except.ok d2 =>
          match updFe0Dft d2 (fun dft => updKeyObj dft "+print"
              (fun pr => updKeyObj pr "+moments" (fun m => Except.ok
                (setKey m "filename" (CVal.str filename))))) with
          | Except.error e => Except.error e
          | Except.ok d3 => Except.ok d3
    else Except.error PyErr.assertionError

/-- Translation of `add_run_type` (lines 120-127): assert exactly one
FORCE_EVAL, then set `input_dict['+global']['run_type']`. -/
def add_run_type (input_dict : Dict) (run_type : String) : Except PyErr Dict :=
  match pyLen input_dict "+force_eval" with
  | Except.error e => Except.error e
  | Except.ok n =>
    if n = 1 then
      match getKey input_dict "+global" with
      | some (CVal.obj g) =>
          Except.ok (setKey input_dict "+global"
            (CVal.obj (setKey g "run_type" (CVal.str run_type))))
      | some _ => Except.error PyErr.typeError
      | none => Except.error PyErr.keyError
    else Except.error PyErr.assertionError

/-- Translation of `add_restart_wfn` (lines 129-139): assert exactly one
FORCE_EVAL, then set `wfn_restart_file_name` to `f"../{Path(restart_wfn).name}"`
(one directory level above the generated input). -/
def add_restart_wfn (input_dict : Dict) (restart_wfn : List String) :
    Except PyErr Dict :=
  match pyLen input_dict "+force_eval" with
  | Except.error e => Except.error e
  | Except.ok n =>
    if n = 1 then
      updFe0Dft input_dict (fun dft => Except.ok
        (setKey dft "wfn_restart_file_name"
          (CVal.str ("../" ++ restart_wfn.getLastD ""))))
    else Except.error PyErr.assertionError

/-- The `+periodic_efield` block built by `add_efield_input`. -/
def efieldObj (intensity : ℚ) (displacement_field : Bool)
    (polarisation d_filter : List ℚ) : Dict :=
  [("intensity", CVal.num intensity),
   ("displacement_field", CVal.bool displacement_field),
   ("polarisation", CVal.vec polarisation),
   ("d_filter", CVal.vec d_filter)]

/-- Normal form of a well-formed configuration after `add_efield_input`. -/
def withEfield (d fe dft : Dict) (i : ℚ) (df : Bool) (pol fil : List ℚ) : Dict :=
  setKey d "+force_eval" (CVal.arr [CVal.obj (setKey fe "+dft"
    (CVal.obj (setKey dft "+periodic_efield" (CVal.obj (efieldObj i df pol fil)))))])

theorem add_efield_input_eq (d fe dft : Dict) (i : ℚ) (df : Bool)
    (pol fil : List ℚ)
    (hfe : getKey d "+force_eval" = some (CVal.arr [CVal.obj fe]))
    (hdft : getKey fe "+dft" = some (CVal.obj dft)) :
    add_efield_input d i df pol fil = Except.ok (withEfield d fe dft i df pol fil) := by
  simp [add_efield_input, pyLen, updFe0Dft, updKeyObj, withEfield, efieldObj,
    hfe, hdft]

theorem add_print_moments_eq (d fe dft : Dict) (periodic : Bool) (fn : String)
    (hfe : getKey d "+force_eval" = some (CVal.arr [CVal.obj fe]))
    (hdft : getKey fe "+dft" = some (CVal.obj dft)) :
    add_print_moments d periodic fn = Except.ok
      (setKey d "+force_eval" (CVal.arr [CVal.obj (setKey fe "+dft"
        (CVal.obj (setKey dft "+print" (CVal.obj [("+moments",
          CVal.obj [("periodic", CVal.bool periodic),
                    ("filename", CVal.str fn)])]))))])) := by
  simp [add_print_moments, pyLen, updFe0Dft, updKeyObj, hfe, hdft]

theorem add_run_type_eq (d g : Dict) (l : List CVal) (rt : String)
    (hfe : getKey d "+force_eval" = some (CVal.arr l)) (hlen : l.length = 1)
    (hg : getKey d "+global" = some (CVal.obj g)) :
    add_run_type d rt = Except.ok
      (setKey d "+global" (CVal.obj (setKey g "run_type" (CVal.str rt)))) := by
  simp [add_run_type, pyLen, hfe, hlen, hg]

theorem add_restart_wfn_eq (d fe dft : Dict) (r : List String)
    (hfe : getKey d "+force_eval" = some (CVal.arr [CVal.obj fe]))
    (hdft : getKey fe "+dft" = some (CVal.obj dft)) :
    add_restart_wfn d r = Except.ok
      (setKey d "+force_eval" (CVal.arr [CVal.obj (setKey fe "+dft"
        (CVal.obj (setKey dft "wfn_restart_file_name"
          (CVal.str ("../" ++ r.getLastD "")))))])) := by
  simp [add_restart_wfn, pyLen, updFe0Dft, hfe, hdft]

/-- The filesystem effects of one iteration of the sweep loop of
`gen_series_calc_efield` (lines 170-182): create the working directory, write
the generated input file, copy the extra forward files into the directory. -/
def iterEffects (d fe dft : Dict) (df : Bool) (pol fil : List ℚ)
    (out : List String) (extra : List (List String)) (i : ℚ) : List Effect :=
  Effect.mkdir (out ++ [nameOf i]) ::
  Effect.writeInput (out ++ [nameOf i, "input.inp"]) (withEfield d fe dft i df pol fil) ::
  copy_file_list extra (out ++ [nameOf i])

/-- The `for intensity in intensity_array:` loop of `gen_series_calc_efield`
(lines 170-184), threading the single mutable template dictionary through the
iterations and recording the filesystem effects.  On a Python exception the
effects already performed are kept and the error is propagated. -/
def efield_loop (d : Dict) (ints : List ℚ) (df : Bool) (pol fil : List ℚ)
    (out : List String) (extra : List (List String)) :
    List Effect × Except PyErr (List String) :=
  match ints with
  | [] => ([], Except.ok [])
  | i :: rest =>
    match add_efield_input d i df pol fil with
    | Except.error e => ([], Except.error e)
    | Except.ok d' =>
      let dir := out ++ [nameOf i]
      let here := Effect.mkdir dir ::
        Effect.writeInput (dir ++ ["input.inp"]) d' :: copy_file_list extra dir
      match efield_loop d' rest df pol fil out extra with
      | (effs, Except.ok names) => (here ++ effs, Except.ok (nameOf i :: names))
      | (effs, Except.error e) => (here ++ effs, Except.error e)

/-- Translation of `gen_series_calc_efield` (lines 141-184): enable moment
printing, set the run type for the "optical"/"static" response modes, set the
restart wavefunction if given, then generate one working directory and input
file per intensity.  Returns the recorded effects and the task work path
list (the directory names, relative to the work base). -/
def gen_series_calc_efield (input_dict : Dict) (intensity_array : List ℚ)
    (displacement : Bool) (polarisation d_filter : List ℚ) (periodic : Bool)
    (eps_type : String) (filename : String) (output_dir : List String)
    (extra_forward_files : List (List String))
    (restart_wfn : Option (List String)) :
    List Effect × Except PyErr (List String) :=
  match add_print_moments input_dict periodic filename with
  | Except.error e => ([], Except.error e)
  | Except.ok d0 =>
    match (if eps_type = "optical" then add_run_type d0 "ENERGY_FORCE"
           else if eps_type = "static" then add_run_type d0 "GEO_OPT"
           else Except.ok d0) with
    | Except.error e => ([], Except.error e)
    | Except.ok d1 =>
      match (match restart_wfn with
             | some r => add_restart_wfn d1 r
             | none => Except.ok d1) with
      | Except.error e => ([], Except.error e)
      | Except.ok d2 =>
          efield_loop d2 intensity_array displacement polarisation d_filter
            output_dir extra_forward_files

theorem withEfield_withEfield (d fe dft : Dict) (i j : ℚ) (df df' : Bool)
    (pol pol' fil fil' : List ℚ) :
    withEfield (withEfield d fe dft i df pol fil)
      (setKey fe "+dft" (CVal.obj (setKey dft "+periodic_efield"
        (CVal.obj (efieldObj i df pol fil)))))
      (setKey dft "+periodic_efield" (CVal.obj (efieldObj i df pol fil)))
      j df' pol' fil' = withEfield d fe dft j df' pol' fil' := by
  simp [withEfield]

theorem efield_loop_eq (d fe dft : Dict) (ints : List ℚ) (df : Bool)
    (pol fil : List ℚ) (out : List String) (extra : List (List String))
    (hfe : getKey d "+force_eval" = some (CVal.arr [CVal.obj fe]))
    (hdft : getKey fe "+dft" = some (CVal.obj dft)) :
    efield_loop d ints df pol fil out extra =
      ((ints.map (iterEffects d fe dft df pol fil out extra)).flatten,
       Except.ok (ints.map nameOf)) := by
  induction ints generalizing d fe dft with
  | nil => simp [efield_loop]
  | cons i rest ih =>
    have hfe' : getKey (withEfield d fe dft i df pol fil) "+force_eval" =
        some (CVal.arr [CVal.obj (setKey fe "+dft" (CVal.obj
          (setKey dft "+periodic_efield" (CVal.obj (efieldObj i df pol fil)))))]) := by
      simp [withEfield]
    have hdft' : getKey (setKey fe "+dft" (CVal.obj
        (setKey dft "+periodic_efield" (CVal.obj (efieldObj i df pol fil))))) "+dft" =
        some (CVal.obj (setKey dft "+periodic_efield"
          (CVal.obj (efieldObj i df pol fil)))) := by simp
    have hmap : rest.map (iterEffects (withEfield d fe dft i df pol fil)
        (setKey fe "+dft" (CVal.obj (setKey dft "+periodic_efield"
          (CVal.obj (efieldObj i df pol fil)))))
        (setKey dft "+periodic_efield" (CVal.obj (efieldObj i df pol fil)))
        df pol fil out extra) =
        rest.map (iterEffects d fe dft df pol fil out extra) :=
      List.map_congr_left (fun j _ => by
        simp [iterEffects, withEfield_withEfield])
    rw [efield_loop, add_efield_input_eq d fe dft i df pol fil hfe hdft]
    simp only [ih _ _ _ hfe' hdft', hmap]
    simp [iterEffects]

theorem gen_series_stage2 (dR fe0 dft0 gR : Dict) (ints : List ℚ) (df : Bool)
    (pol fil : List ℚ) (out : List String) (extra : List (List String))
    (restart : Option (List String))
    (hfeR : getKey dR "+force_eval" = some (CVal.arr [CVal.obj fe0]))
    (hdftR : getKey fe0 "+dft" = some (CVal.obj dft0))
    (hgR : getKey dR "+global" = some (CVal.obj gR)) :
    ∃ d2 fe2 dft2,
      (match (match restart with
              | some r => add_restart_wfn dR r
              | none => Except.ok dR) with
       | Except.error e => ([], Except.error e)
       | Except.ok d2 => efield_loop d2 ints df pol fil out extra) =
        ((ints.map (iterEffects d2 fe2 dft2 df pol fil out extra)).flatten,
         Except.ok (ints.map nameOf))
      ∧ getKey d2 "+global" = some (CVal.obj gR)
      ∧ (∀ r, restart = some r →
          getKey dft2 "wfn_restart_file_name" =
            some (CVal.str ("../" ++ r.getLastD ""))) := by
  cases restart with
  | none =>
    refine ⟨dR, fe0, dft0, ?_, hgR, ?_⟩
    · simp only [efield_loop_eq dR fe0 dft0 ints df pol fil out extra hfeR hdftR]
    · intro r h
      exact absurd h (by simp)
  | some r =>
    have hRW := add_restart_wfn_eq dR fe0 dft0 r hfeR hdftR
    refine ⟨setKey dR "+force_eval" (CVal.arr [CVal.obj (setKey fe0 "+dft"
        (CVal.obj (setKey dft0 "wfn_restart_file_name"
          (CVal.str ("../" ++ r.getLastD "")))))]),
      setKey fe0 "+dft" (CVal.obj (setKey dft0 "wfn_restart_file_name"
        (CVal.str ("../" ++ r.getLastD "")))),
      setKey dft0 "wfn_restart_file_name" (CVal.str ("../" ++ r.getLastD "")),
      ?_, ?_, ?_⟩
    · simp only [hRW]
      exact efield_loop_eq _ _ _ ints df pol fil out extra (by simp) (by simp)
    · rw [getKey_setKey_ne _ _ _ _ (by decide)]
      exact hgR
    · intro r' h
      obtain rfl : r = r' := by simpa using h
      simp


theorem gen_series_calc_efield_eq (d fe dft g : Dict) (ints : List ℚ)
    (df : Bool) (pol fil : List ℚ) (periodic : Bool) (eps fn : String)
    (out : List String) (extra : List (List String))
    (restart : Option (List String))
    (hfe : getKey d "+force_eval" = some (CVal.arr [CVal.obj fe]))
    (hdft : getKey fe "+dft" = some (CVal.obj dft))
    (hg : getKey d "+global" = some (CVal.obj g)) :
    ∃ d2 fe2 dft2 g2,
      gen_series_calc_efield d ints df pol fil periodic eps fn out extra restart =
        ((ints.map (iterEffects d2 fe2 dft2 df pol fil out extra)).flatten,
         Except.ok (ints.map nameOf))
      ∧ getKey d2 "+global" = some (CVal.obj g2)
      ∧ (eps ≠ "optical" → eps ≠ "static" → g2 = g)
      ∧ (eps = "optical" → g2 = setKey g "run_type" (CVal.str "ENERGY_FORCE"))
      ∧ (eps = "static" → g2 = setKey g "run_type" (CVal.str "GEO_OPT"))
      ∧ (∀ r, restart = some r →
          getKey dft2 "wfn_restart_file_name" =
            some (CVal.str ("../" ++ r.getLastD ""))) := by
  have h1 := add_print_moments_eq d fe dft periodic fn hfe hdft
  set dft0 := setKey dft "+print" (CVal.obj [("+moments",
    CVal.obj [("periodic", CVal.bool periodic), ("filename", CVal.str fn)])]) with hdft0
  set fe0 := setKey fe "+dft" (CVal.obj dft0) with hfe0
  set dP := setKey d "+force_eval" (CVal.arr [CVal.obj fe0]) with hdP
  have hfeP : getKey dP "+force_eval" = some (CVal.arr [CVal.obj fe0]) := by
    rw [hdP]; simp
  have hdftP : getKey fe0 "+dft" = some (CVal.obj dft0) := by rw [hfe0]; simp
  have hgP : getKey dP "+global" = some (CVal.obj g) := by
    rw [hdP, getKey_setKey_ne _ _ _ _ (by decide)]; exact hg
  by_cases hopt : eps = "optical"
  · subst hopt
    have hR := add_run_type_eq dP g [CVal.obj fe0] "ENERGY_FORCE" hfeP rfl hgP
    obtain ⟨d2, fe2, dft2, heq, hgl, hwfn⟩ :=
      gen_series_stage2 (setKey dP "+global" (CVal.obj (setKey g "run_type"
          (CVal.str "ENERGY_FORCE")))) fe0 dft0
        (setKey g "run_type" (CVal.str "ENERGY_FORCE")) ints df pol fil out
        extra restart
        (by rw [getKey_setKey_ne _ _ _ _ (by decide)]; exact hfeP) hdftP (by simp)
    refine ⟨d2, fe2, dft2, setKey g "run_type" (CVal.str "ENERGY_FORCE"),
      ?_, hgl, fun hne _ => absurd rfl hne, fun _ => rfl,
      fun h => absurd h (by decide), hwfn⟩
    simp only [gen_series_calc_efield, h1, if_true, hR]
    exact heq
  · by_cases hstat : eps = "static"
    · subst hstat
      have hR := add_run_type_eq dP g [CVal.obj fe0] "GEO_OPT" hfeP rfl hgP
      obtain ⟨d2, fe2, dft2, heq, hgl, hwfn⟩ :=
        gen_series_stage2 (setKey dP "+global" (CVal.obj (setKey g "run_type"
            (CVal.str "GEO_OPT")))) fe0 dft0
          (setKey g "run_type" (CVal.str "GEO_OPT")) ints df pol fil out
          extra restart
          (by rw [getKey_setKey_ne _ _ _ _ (by decide)]; exact hfeP) hdftP (by simp)
      refine ⟨d2, fe2, dft2, setKey g "run_type" (CVal.str "GEO_OPT"),
        ?_, hgl, fun _ hne => absurd rfl hne, fun h => absurd h (by decide),
        fun _ => rfl, hwfn⟩
      simp only [gen_series_calc_efield, h1,
        if_neg (by decide : ¬ ("static" : String) = "optical"), if_true, hR]
      exact heq
    · obtain ⟨d2, fe2, dft2, heq, hgl, hwfn⟩ :=
        gen_series_stage2 dP fe0 dft0 g ints df pol fil out extra restart
          hfeP hdftP hgP
      refine ⟨d2, fe2, dft2, g, ?_, hgl, fun _ _ => rfl,
        fun h => absurd h hopt, fun h => absurd h hstat, hwfn⟩
      simp only [gen_series_calc_efield, h1, if_neg hopt, if_neg hstat]
      exact heq

/-- The configurations written to input files, in the order in which the
effect trace wrote them. -/
def writtenConfigs (effs : List Effect) : List Dict :=
  effs.filterMap (fun e => match e with
    | Effect.writeInput _ c => some c
    | _ => none)

/-- The paths of the input files written, in trace order. -/
def writtenPaths (effs : List Effect) : List (List String) :=
  effs.filterMap (fun e => match e with
    | Effect.writeInput p _ => some p
    | _ => none)

@[simp]
theorem writtenConfigs_copy_file_list (fs : List (List String))
    (dir : List String) : writtenConfigs (copy_file_list fs dir) = [] := by
  induction fs with
  | nil => rfl
  | cons f t ih => simp [writtenConfigs, copy_file_list] at ih ⊢

@[simp]
theorem writtenPaths_copy_file_list (fs : List (List String))
    (dir : List String) : writtenPaths (copy_file_list fs dir) = [] := by
  induction fs with
  | nil => rfl
  | cons f t ih => simp [writtenPaths, copy_file_list] at ih ⊢

theorem writtenConfigs_append (a b : List Effect) :
    writtenConfigs (a ++ b) = writtenConfigs a ++ writtenConfigs b :=
  List.filterMap_append a b _

theorem writtenPaths_append (a b : List Effect) :
    writtenPaths (a ++ b) = writtenPaths a ++ writtenPaths b :=
  List.filterMap_append a b _

@[simp]
theorem writtenConfigs_cons_mkdir (p : List String) (t : List Effect) :
    writtenConfigs (Effect.mkdir p :: t) = writtenConfigs t := by
  simp [writtenConfigs]

@[simp]
theorem writtenConfigs_cons_write (p : List String) (c : Dict) (t : List Effect) :
    writtenConfigs (Effect.writeInput p c :: t) = c :: writtenConfigs t := by
  simp [writtenConfigs]

@[simp]
theorem writtenPaths_cons_mkdir (p : List String) (t : List Effect) :
    writtenPaths (Effect.mkdir p :: t) = writtenPaths t := by
  simp [writtenPaths]

@[simp]
theorem writtenPaths_cons_write (p : List String) (c : Dict) (t : List Effect) :
    writtenPaths (Effect.writeInput p c :: t) = p :: writtenPaths t := by
  simp [writtenPaths]

theorem writtenConfigs_sweep (d2 fe2 dft2 : Dict) (ints : List ℚ) (df : Bool)
    (pol fil : List ℚ) (out : List String) (extra : List (List String)) :
    writtenConfigs ((ints.map (iterEffects d2 fe2 dft2 df pol fil out extra)).flatten) =
      ints.map (fun i => withEfield d2 fe2 dft2 i df pol fil) := by
  induction ints with
  | nil => rfl
  | cons i rest ih =>
    simp only [List.map_cons, List.flatten_cons, writtenConfigs_append, ih,
      iterEffects, writtenConfigs_cons_mkdir, writtenConfigs_cons_write,
      writtenConfigs_copy_file_list, List.nil_append, List.singleton_append]

theorem writtenPaths_sweep (d2 fe2 dft2 : Dict) (ints : List ℚ) (df : Bool)
    (pol fil : List ℚ) (out : List String) (extra : List (List String)) :
    writtenPaths ((ints.map (iterEffects d2 fe2 dft2 df pol fil out extra)).flatten) =
      ints.map (fun i => out ++ [nameOf i, "input.inp"]) := by
  induction ints with
  | nil => rfl
  | cons i rest ih =>
    simp only [List.map_cons, List.flatten_cons, writtenPaths_append, ih,
      iterEffects, writtenPaths_cons_mkdir, writtenPaths_cons_write,
      writtenPaths_copy_file_list, List.nil_append, List.singleton_append]

/-- Reading the `+periodic_efield` block a generated input file carries, i.e.
`input['+force_eval'][0]['+dft']['+periodic_efield']` (None when absent). -/
def getDftField (d : Dict) (k : String) : Option CVal :=
  match getKey d "+force_eval" with
  | some (CVal.arr (CVal.obj fe :: _)) =>
      match getKey fe "+dft" with
      | some (CVal.obj dft) => getKey dft k
      | _ => none
  | _ => none

/-- The `+periodic_efield` block of a configuration. -/
def getEfieldBlock (d : Dict) : Option CVal := getDftField d "+periodic_efield"

/-- The `['+global']['run_type']` entry of a configuration (None when absent). -/
def getRunType (d : Dict) : Option CVal :=
  match getKey d "+global" with
  | some (CVal.obj g) => getKey g "run_type"
  | _ => none

theorem getDftField_withEfield (d fe dft : Dict) (i : ℚ) (df : Bool)
    (pol fil : List ℚ) (k : String) :
    getDftField (withEfield d fe dft i df pol fil) k =
      getKey (setKey dft "+periodic_efield" (CVal.obj (efieldObj i df pol fil))) k := by
  simp [getDftField, withEfield]

theorem getRunType_withEfield (d fe dft : Dict) (i : ℚ) (df : Bool)
    (pol fil : List ℚ) :
    getRunType (withEfield d fe dft i df pol fil) = getRunType d := by
  simp [getRunType, withEfield, getKey_setKey_ne _ _ _ _
    (by decide : ("+global" : String) ≠ "+force_eval")]

/-- Translation of the dpdispatcher `Task` objects built by `gen_task_list`
(only the fields the source sets). -/
structure Task where
  command : String
  task_work_path : String
  forward_files : List (List String)
  backward_files : List String
  outlog : String

/-- Translation of `gen_task_list` (lines 186-200): one task per working
directory, all sharing the command, the forward files (the extra files plus
the generated `input.inp`) and the backward files (the dipole-moment file and
the execution log). -/
def gen_task_list (command : String) (task_work_path_list : List String)
    (extra_forward_files : List (List String)) : List Task :=
  task_work_path_list.map (fun task_work_path =>
    { command := command
      task_work_path := task_work_path
      forward_files := extra_forward_files ++ [["input.inp"]]
      backward_files := [DIPOLE_MOMENT_FILE, CP2K_LOG_FILE]
      outlog := CP2K_LOG_FILE })

/-- A simulation cell, as the 3x3 matrix of lattice vectors parsed from the
execution log by the external `Cp2kOutput.get_all_cells`. -/
def Cell := Fin 3 → Fin 3 → ℚ

/-- The determinant of a 3x3 cell, as `np.linalg.det` computes it
(mathematically; the cofactor expansion along the first row). -/
def det3 (m : Cell) : ℚ :=
  m 0 0 * (m 1 1 * m 2 2 - m 1 2 * m 2 1)
  - m 0 1 * (m 1 0 * m 2 2 - m 1 2 * m 2 0)
  + m 0 2 * (m 1 0 * m 2 1 - m 1 1 * m 2 0)

theorem det3_eq_det (m : Cell) : det3 m = (Matrix.of m).det := by
  rw [Matrix.det_fin_three]
  simp only [Matrix.of_apply, det3]
  ring

/-- One iteration of the `get_dipole_moment_array` loop (lines 43-46): read
`output_dir/task_work_path/moments.dat`, parse it, and take entry `[0][3]`
(first recorded frame, fourth field).  `dipFrames` abstracts
`parse_dipole_list(file_to_list(...))`, mapping the file path to the list of
parsed frames. -/
def readDipole (dipFrames : List String → List (List ℚ))
    (output_dir : List String) (task_work_path : String) : Except PyErr ℚ :=
  match (dipFrames (output_dir ++ [task_work_path, DIPOLE_MOMENT_FILE]))[0]? with
  | some frame =>
      match frame[3]? with
      | some v => Except.ok v
      | none => Except.error PyErr.indexError
  | none => Except.error PyErr.indexError

/-- One iteration of the `get_volume_array` loop (lines 52-57): read
`output_dir/task_work_path/cp2k.log`, take the first cell frame, and record
`det(cell) / au2A ** 3`.  `logCells` abstracts
`Cp2kOutput(...).get_all_cells()`; `au2A` is the external unit constant. -/
def readVolume (logCells : List String → List Cell) (au2A : ℚ)
    (output_dir : List String) (task_work_path : String) : Except PyErr ℚ :=
  match (logCells (output_dir ++ [task_work_path, CP2K_LOG_FILE]))[0]? with
  | some cell => Except.ok (det3 cell / au2A ^ 3)
  | none => Except.error PyErr.indexError

/-- The accumulation loop shared by the two collectors: apply `f` to each
task work path in order, aborting on the first Python exception. -/
def collect (f : String → Except PyErr ℚ) : List String → Except PyErr (List ℚ)
  | [] => Except.ok []
  | p :: ps =>
    match f p with
    | Except.error e => Except.error e
    | Except.ok v =>
      match collect f ps with
      | Except.error e => Except.error e
      | Except.ok vs => Except.ok (v :: vs)

/-- Translation of `get_dipole_moment_array` (lines 40-47). -/
def get_dipole_moment_array (dipFrames : List String → List (List ℚ))
    (task_work_path_list : List String) (output_dir : List String) :
    Except PyErr (List ℚ) :=
  collect (readDipole dipFrames output_dir) task_work_path_list

/-- Translation of `get_volume_array` (lines 49-58). -/
def get_volume_array (logCells : List String → List Cell) (au2A : ℚ)
    (task_work_path_list : List String) (output_dir : List String) :
    Except PyErr (List ℚ) :=
  collect (readVolume logCells au2A output_dir) task_work_path_list

theorem collect_length (f : String → Except PyErr ℚ) (ps : List String)
    (vs : List ℚ) (h : collect f ps = Except.ok vs) : vs.length = ps.length := by
  induction ps generalizing vs with
  | nil =>
    simp only [collect] at h
    cases h
    rfl
  | cons p t ih =>
    simp only [collect] at h
    cases hf : f p with
    | error e => rw [hf] at h; cases h
    | ok v =>
      rw [hf] at h
      cases ht : collect f t with
      | error e => rw [ht] at h; cases h
      | ok vt =>
        rw [ht] at h
        cases h
        simp [ih vt ht]

theorem collect_nth (f : String → Except PyErr ℚ) (ps : List String)
    (vs : List ℚ) (n : Nat) (p : String) (v : ℚ)
    (h : collect f ps = Except.ok vs) (hp : ps[n]? = some p)
    (hv : vs[n]? = some v) : f p = Except.ok v := by
  induction ps generalizing vs n with
  | nil => simp at hp
  | cons q t ih =>
    simp only [collect] at h
    cases hf : f q with
    | error e => rw [hf] at h; cases h
    | ok w =>
      rw [hf] at h
      cases ht : collect f t with
      | error e => rw [ht] at h; cases h
      | ok vt =>
        rw [ht] at h
        cases h
        cases n with
        | zero =>
          simp only [List.getElem?_cons_zero] at hp hv
          cases hp; cases hv
          exact hf
        | succ m =>
          simp only [List.getElem?_cons_succ] at hp hv
          exact ih vt m ht hp hv

/-- Formalisation of claim C3's own words, for comparison with the code: the
collector is claimed to return, from the first recorded frame, the dipole
component in the applied-field direction, i.e. the entry whose index is the
axis selected by the polarisation vector (the first nonzero axis). -/
def alignedIndex (polarisation : List ℚ) : Nat :=
  polarisation.findIdx (fun a => a != 0)

/-- Formalisation of claim C3's own words (continued): per-directory read of
the polarisation-aligned component of the first frame. -/
def readDipoleClaimed (dipFrames : List String → List (List ℚ))
    (output_dir : List String) (polarisation : List ℚ)
    (task_work_path : String) : Except PyErr ℚ :=
  match (dipFrames (output_dir ++ [task_work_path, DIPOLE_MOMENT_FILE]))[0]? with
  | some frame =>
      match frame[alignedIndex polarisation]? with
      | some v => Except.ok v
      | none => Except.error PyErr.indexError
  | none => Except.error PyErr.indexError

/-- Formalisation of claim C3's own words (continued): the whole collector as
the claim describes it. -/
def get_dipole_moment_array_claimed (dipFrames : List String → List (List ℚ))
    (task_work_path_list : List String) (output_dir : List String)
    (polarisation : List ℚ) : Except PyErr (List ℚ) :=
  collect (readDipoleClaimed dipFrames output_dir polarisation) task_work_path_list

/-- The mean used by `scipy.stats.linregress` through `np.cov` (with the
convention `0/0 = 0` of `ℚ`, which the nondegeneracy hypotheses of the
theorems below rule out anyway). -/
def mean (l : List ℚ) : ℚ := l.sum / l.length

/-- The bias-corrected-free second moment `np.cov(x, y, bias=1)` entry used by
`linregress`: the mean of the products of centred coordinates. -/
def ssm (x y : List ℚ) : ℚ :=
  mean (List.zipWith (fun a b => (a - mean x) * (b - mean y)) x y)

/-- The ordinary-least-squares slope `scipy.stats.linregress(x, y).slope`,
namely `cov(x, y) / cov(x, x)`. -/
def linregress_slope (x y : List ℚ) : ℚ := ssm x y / ssm x x

/-- Translation of `get_dielectric_constant` (lines 60-67): polarization is
the elementwise quotient dipole/volume, the slope of the least-squares fit of
polarization against intensity is taken, and the result is
`slope * 4 * np.pi + 1`.  `piR` stands for the float constant `np.pi`. -/
def get_dielectric_constant (dipole_moment_array : List ℚ)
    (intensity_array : List ℚ) (volume_array : List ℚ) (piR : ℝ) : ℝ :=
  ((linregress_slope intensity_array
      (List.zipWith (· / ·) dipole_moment_array volume_array) : ℚ) : ℝ)
    * 4 * piR + 1

/-- Outcome of the external dispatcher call. -/
inductive RunOutcome where
  | dryRunShortCircuit
  | jobsExecuted
  deriving DecidableEq, Repr

/-- Modelled from the spec: `Submission.run_submission` belongs to the
external dpdispatcher library, which is not part of this repository.  Per the
spec's dispatcher contract, it executes all jobs and returns only after all
have completed, unless the dry-run flag short-circuits submission without
executing any job. -/
def run_submission (dry_run : Bool) (_exit_on_submit : Bool) : RunOutcome :=
  if dry_run then RunOutcome.dryRunShortCircuit else RunOutcome.jobsExecuted

/-- The data `calc_diel` has computed when it reaches its final prints. -/
structure CalcDielOk where
  task_work_path_list : List String
  task_list : List Task
  runOutcome : RunOutcome
  dipole_moment_array : List ℚ
  volume_array : List ℚ
  dielectric_constant : ℝ

/-- Observable behaviour of one `calc_diel` call: the filesystem effects it
performed, the final contents of the (caller-owned, aliased) list object that
was passed as `extra_forward_common_files`, and the result. -/
structure CalcDielTrace where
  effects : List Effect
  fcf_final : List (List String)
  result : Except PyErr CalcDielOk

/-- The list object created once, at function-definition time, for the
default value `extra_forward_common_files=[]` of `calc_diel`.  CPython
evaluates default arguments once and reuses the same object on every call
that omits the argument, so its contents must be threaded from call to call
(see the claim-C9 theorem). -/
def defaultExtraForwardCommonFiles : List (List String) := []

/-- Translation of `calc_diel` (lines 202-270).  `template_input_dict` stands
for the result of `gen_cp2k_input_dict(input_file, canonical=True)`, whose
parsing is delegated to the external cp2k_input_tools library; the
machine/resources dictionaries are consumed opaquely by the external
dispatcher and are omitted.  Note the translation of lines 253-256: the local
`exit_on_submit` is only ever assigned under `if dry_run:`, so the
`run_submission` call raises UnboundLocalError whenever `dry_run` is false. -/
def calc_diel (dipFrames : List String → List (List ℚ))
    (logCells : List String → List Cell) (au2A : ℚ) (piR : ℝ)
    (template_input_dict : Dict) (intensity_array : List ℚ)
    (displacement_field : Bool) (polarisation d_filter : List ℚ)
    (eps_type : String) (output_dir : List String) (command : String)
    (extra_forward_files : List (List String))
    (extra_forward_common_files : List (List String))
    (restart_wfn : Option (List String)) (dry_run : Bool) : CalcDielTrace :=
  match gen_series_calc_efield template_input_dict intensity_array
      displacement_field polarisation d_filter true eps_type
      ("=" ++ DIPOLE_MOMENT_FILE) output_dir extra_forward_files restart_wfn with
  | (genEffs, Except.error e) =>
      { effects := genEffs, fcf_final := extra_forward_common_files,
        result := Except.error e }
  | (genEffs, Except.ok task_work_path_list) =>
    let task_list := gen_task_list command task_work_path_list extra_forward_files
    let forward_common_files :=
      match restart_wfn with
      | some r => extra_forward_common_files ++ [r]
      | none => extra_forward_common_files
    let effs := genEffs ++ copy_file_list forward_common_files output_dir
    match (if dry_run then some true else none : Option Bool) with
    | none =>
        { effects := effs, fcf_final := forward_common_files,
          result := Except.error PyErr.unboundLocalError }
    | some exit_on_submit =>
      let outcome := run_submission dry_run exit_on_submit
      match get_dipole_moment_array dipFrames task_work_path_list output_dir with
      | Except.error e =>
          { effects := effs, fcf_final := forward_common_files,
            result := Except.error e }
      | Except.ok dipole_moment_array =>
        match get_volume_array logCells au2A task_work_path_list output_dir with
        | Except.error e =>
            { effects := effs, fcf_final := forward_common_files,
              result := Except.error e }
        | Except.ok volume_array =>
            { effects := effs ++ [Effect.savetxt "dipole_moment_array.dat",
                Effect.savetxt "intensity_array.dat",
                Effect.savetxt "volume_array.dat"],
              fcf_final := forward_common_files,
              result := Except.ok
                { task_work_path_list := task_work_path_list
                  task_list := task_list
                  runOutcome := outcome
                  dipole_moment_array := dipole_moment_array
                  volume_array := volume_array
                  dielectric_constant := get_dielectric_constant
                    dipole_moment_array intensity_array volume_array piR } }

theorem zipWith_self {α : Type} (f : ℚ → ℚ → α) (l : List ℚ) :
    List.zipWith f l l = l.map fun a => f a a := by
  induction l with
  | nil => rfl
  | cons a t ih => simp [ih]

theorem sum_map_affine (l : List ℚ) (k b : ℚ) :
    (l.map fun a => k * a + b).sum = k * l.sum + b * l.length := by
  induction l with
  | nil => simp
  | cons a t ih =>
    simp only [List.map_cons, List.sum_cons, ih, List.length_cons]
    push_cast
    ring

theorem mean_map_affine (l : List ℚ) (k b : ℚ) (h : l ≠ []) :
    mean (l.map fun a => k * a + b) = k * mean l + b := by
  have hn : (l.length : ℚ) ≠ 0 :=
    Nat.cast_ne_zero.mpr (fun hh => h (List.length_eq_zero.mp hh))
  simp only [mean, List.length_map, sum_map_affine]
  field_simp

theorem mean_map_mul_left (l : List ℚ) (k : ℚ) (f : ℚ → ℚ) :
    mean (l.map fun a => k * f a) = k * mean (l.map f) := by
  rw [mean, mean, List.length_map, List.length_map, List.sum_map_mul_left,
    mul_div_assoc]

theorem ssm_linear (x : List ℚ) (k b : ℚ) (h : x ≠ []) :
    ssm x (x.map fun a => k * a + b) = k * ssm x x := by
  have hmm := mean_map_affine x k b h
  simp only [ssm, List.zipWith_map_right, zipWith_self, hmm]
  have he : (fun a => (a - mean x) * (k * a + b - (k * mean x + b))) =
      fun a => k * ((a - mean x) * (a - mean x)) := by
    funext a
    ring
  rw [he, mean_map_mul_left]

theorem slope_linear (x : List ℚ) (k b : ℚ) (hnd : ssm x x ≠ 0) :
    linregress_slope x (x.map fun a => k * a + b) = k := by
  have hx : x ≠ [] := by
    intro h
    rw [h] at hnd
    simp [ssm, mean] at hnd
  rw [linregress_slope, ssm_linear x k b hx, mul_div_assoc, div_self hnd, mul_one]

/-- Claim C4: `get_dielectric_constant` computes polarization as the
elementwise quotient dipole/volume, performs an ordinary least-squares linear
regression of polarization against intensity, and returns slope*4*pi + 1; in
particular, whenever the polarization is exactly linear in the intensity with
slope `k` (and the intensities are not all equal, so the fit is defined), the
result is exactly `k*4*pi + 1`. -/
theorem dielectric_constant_of_linear_polarization
    (dipole_moment_array intensity_array volume_array : List ℚ) (k b : ℚ)
    (piR : ℝ)
    (hlin : List.zipWith (· / ·) dipole_moment_array volume_array =
      intensity_array.map (fun x => k * x + b))
    (hnd : ssm intensity_array intensity_array ≠ 0) :
    get_dielectric_constant dipole_moment_array intensity_array volume_array
      piR = (k : ℝ) * 4 * piR + 1 := by
  rw [get_dielectric_constant, hlin, slope_linear intensity_array k b hnd]

theorem c4_data_linear :
    List.zipWith (· / ·) [(0 : ℚ), 2/10000] [(500 : ℚ), 500] =
      ([(0 : ℚ), 1/1000]).map (fun x => (1/2500 : ℚ) * x + 0) := by
  norm_num

theorem c4_data_nondegenerate :
    ssm [(0 : ℚ), 1/1000] [(0 : ℚ), 1/1000] ≠ 0 := by
  norm_num [ssm, mean]

/-- Witness for claim C4 at the spec's end-to-end example: intensities
0 and 0.001, dipoles 0 and 2e-4, volumes 500 and 500, slope 4e-4. -/
theorem dielectric_constant_of_linear_polarization_witness :
    (List.zipWith (· / ·) [(0 : ℚ), 2/10000] [(500 : ℚ), 500] =
      ([(0 : ℚ), 1/1000]).map (fun x => (1/2500 : ℚ) * x + 0))
    ∧ ssm [(0 : ℚ), 1/1000] [(0 : ℚ), 1/1000] ≠ 0
    ∧ get_dielectric_constant [(0 : ℚ), 2/10000] [(0 : ℚ), 1/1000]
        [(500 : ℚ), 500] Real.pi = ((1/2500 : ℚ) : ℝ) * 4 * Real.pi + 1 :=
  ⟨c4_data_linear, c4_data_nondegenerate,
    dielectric_constant_of_linear_polarization [(0 : ℚ), 2/10000]
      [(0 : ℚ), 1/1000] [(500 : ℚ), 500] (1/2500) 0 Real.pi
      c4_data_linear c4_data_nondegenerate⟩

/-- Claim C5: a template whose `+force_eval` repetition list has more than one
entry makes `gen_series_calc_efield` fail with the AssertionError raised by
`add_print_moments`, before any working directory is created or any input
file is written: the recorded effect trace is empty. -/
theorem multi_force_eval_fatal_before_io (d : Dict) (l : List CVal)
    (ints : List ℚ) (df : Bool) (pol fil : List ℚ) (periodic : Bool)
    (eps fn : String) (out : List String) (extra : List (List String))
    (restart : Option (List String))
    (hfe : getKey d "+force_eval" = some (CVal.arr l)) (hlen : 1 < l.length) :
    gen_series_calc_efield d ints df pol fil periodic eps fn out extra restart =
      ([], Except.error PyErr.assertionError) := by
  have h1 : add_print_moments d periodic fn =
      Except.error PyErr.assertionError := by
    simp only [add_print_moments, pyLen, hfe]
    rw [if_neg (by omega : ¬ l.length = 1)]
  simp [gen_series_calc_efield, h1]

/-- A template with two FORCE_EVAL blocks. -/
def tmplTwoFe : Dict :=
  [("+force_eval", CVal.arr [CVal.obj [], CVal.obj []])]

/-- Witness for claim C5: a two-FORCE_EVAL template produces the assertion
error with an empty effect trace. -/
theorem multi_force_eval_fatal_before_io_witness :
    getKey tmplTwoFe "+force_eval" =
      some (CVal.arr [CVal.obj [], CVal.obj []])
    ∧ 1 < ([CVal.obj [], CVal.obj []] : List CVal).length
    ∧ gen_series_calc_efield tmplTwoFe [0] false [] [] true "optical" "m"
        ["wd"] [] none = ([], Except.error PyErr.assertionError) :=
  ⟨rfl, by decide,
    multi_force_eval_fatal_before_io tmplTwoFe [CVal.obj [], CVal.obj []]
      [0] false [] [] true "optical" "m" ["wd"] [] none rfl (by decide)⟩

/-- Parsed dipole frames used for the claim-C3 counterexample and witness:
one frame whose four fields are pairwise distinct. -/
def c3Frames : List String → List (List ℚ) := fun _ => [[1, 2, 3, 4]]

/-- Counterexample to claim C3 as stated: with the applied field selecting
the x axis (`polarisation = [1,0,0]`, aligned component at index 0) and first
frame `[1,2,3,4]`, the code's collector returns the entry at fixed index 3
(value 4), not the polarisation-aligned component (value 1): the collector of
the source and the collector the claim describes disagree. -/
theorem dipole_component_selection_counterexample :
    get_dipole_moment_array c3Frames ["efield_0.000000"] ["wd"] =
      Except.ok [4]
    ∧ get_dipole_moment_array_claimed c3Frames ["efield_0.000000"] ["wd"]
        [1, 0, 0] = Except.ok [1]
    ∧ (4 : ℚ) ≠ (1 : ℚ) :=
  ⟨rfl, rfl, by decide⟩

/-- Claim C3 (amended): for every working directory, in sweep order, the
Result Collector returns the entry at fixed index 3 of the first recorded
frame of the dipole-moment output file of that directory — a selection that
is independent of the polarisation and d_filter inputs (the collector never
receives them). -/
theorem dipole_collector_first_frame_index3
    (dipFrames : List String → List (List ℚ)) (paths : List String)
    (out : List String) (arr : List ℚ) (n : Nat) (p : String) (v : ℚ)
    (fr : List ℚ)
    (harr : get_dipole_moment_array dipFrames paths out = Except.ok arr)
    (hp : paths[n]? = some p) (hv : arr[n]? = some v)
    (hfr : (dipFrames (out ++ [p, DIPOLE_MOMENT_FILE]))[0]? = some fr) :
    fr[3]? = some v ∧ arr.length = paths.length := by
  have h := collect_nth (readDipole dipFrames out) paths arr n p v harr hp hv
  refine ⟨?_, collect_length _ _ _ harr⟩
  cases h3 : fr[3]? with
  | none =>
    simp only [readDipole, hfr, h3] at h
    exact Except.noConfusion h
  | some w =>
    simp only [readDipole, hfr, h3] at h
    injection h with h
    rw [h]

/-- Witness for the amended claim C3. -/
theorem dipole_collector_first_frame_index3_witness :
    get_dipole_moment_array c3Frames ["d1"] ["wd"] = Except.ok [4]
    ∧ (["d1"] : List String)[0]? = some "d1"
    ∧ ([(4 : ℚ)])[0]? = some 4
    ∧ (c3Frames (["wd"] ++ ["d1", DIPOLE_MOMENT_FILE]))[0]? =
        some [1, 2, 3, 4]
    ∧ (([(1 : ℚ), 2, 3, 4])[3]? = some 4
        ∧ ([(4 : ℚ)]).length = (["d1"] : List String).length) :=
  ⟨rfl, rfl, rfl, rfl,
    dipole_collector_first_frame_index3 c3Frames ["d1"] ["wd"] [4] 0 "d1" 4
      [1, 2, 3, 4] rfl rfl rfl rfl⟩

/-- Claim C6: for each job, `get_volume_array` takes the first cell frame of
the execution log, computes its determinant (the genuine matrix determinant)
and divides it by the cube of the conversion constant `au2A`. -/
theorem volume_first_cell_determinant
    (logCells : List String → List Cell) (au2A : ℚ) (paths : List String)
    (out : List String) (arr : List ℚ) (n : Nat) (p : String) (w : ℚ)
    (cell : Cell)
    (harr : get_volume_array logCells au2A paths out = Except.ok arr)
    (hp : paths[n]? = some p) (hw : arr[n]? = some w)
    (hcell : (logCells (out ++ [p, CP2K_LOG_FILE]))[0]? = some cell) :
    w = det3 cell / au2A ^ 3 ∧ det3 cell = (Matrix.of cell).det := by
  have h := collect_nth (readVolume logCells au2A out) paths arr n p w harr hp hw
  rw [readVolume, hcell] at h
  injection h with h
  exact ⟨h.symm, det3_eq_det cell⟩

/-- The diagonal cell diag(2, 3, 4), of determinant 24, used by the claim-C6
witness. -/
def cellW : Cell := fun i j =>
  if (i : Nat) = (j : Nat) then
    (if (i : Nat) = 0 then 2 else if (i : Nat) = 1 then 3 else 4)
  else 0

/-- Log parser returning the witness cell for every path. -/
def logCellsW : List String → List Cell := fun _ => [cellW]

theorem c6_volume_read :
    get_volume_array logCellsW 2 ["d1"] ["wd"] = Except.ok [3] := by
  norm_num [get_volume_array, collect, readVolume, det3, logCellsW, cellW,
    Fin.isValue]

/-- Witness for claim C6: cell diag(2,3,4) of determinant 24, conversion
constant 2, recorded volume 24 / 2^3 = 3. -/
theorem volume_first_cell_determinant_witness :
    get_volume_array logCellsW 2 ["d1"] ["wd"] = Except.ok [3]
    ∧ (["d1"] : List String)[0]? = some "d1"
    ∧ ([(3 : ℚ)])[0]? = some 3
    ∧ (logCellsW (["wd"] ++ ["d1", CP2K_LOG_FILE]))[0]? = some cellW
    ∧ ((3 : ℚ) = det3 cellW / 2 ^ 3 ∧ det3 cellW = (Matrix.of cellW).det) :=
  ⟨c6_volume_read, rfl, rfl, rfl,
    volume_first_cell_determinant logCellsW 2 ["d1"] ["wd"] [3] 0 "d1" 3
      cellW c6_volume_read rfl rfl rfl⟩

theorem getEfieldBlock_withEfield (d fe dft : Dict) (i : ℚ) (df : Bool)
    (pol fil : List ℚ) :
    getEfieldBlock (withEfield d fe dft i df pol fil) =
      some (CVal.obj (efieldObj i df pol fil)) := by
  rw [getEfieldBlock, getDftField_withEfield]
  simp

/-- Claim C2: for every intensity array, `gen_series_calc_efield` returns the
list of directory names `efield_{intensity:7.6f}` in input order (same length
as the intensity array); `gen_task_list` builds one job per directory in the
same order; and the collectors read the Nth dipole and the Nth volume from
the Nth directory, so the Nth result corresponds to the Nth intensity
end-to-end. -/
theorem sweep_order_preserved (d fe dft g : Dict) (ints : List ℚ) (df : Bool)
    (pol fil : List ℚ) (periodic : Bool) (eps fn : String) (out : List String)
    (extra : List (List String)) (restart : Option (List String))
    (cmd : String) (extraf : List (List String))
    (dipFrames : List String → List (List ℚ))
    (logCells : List String → List Cell) (au2A : ℚ) (dipArr volArr : List ℚ)
    (n : Nat) (p : String) (v w : ℚ)
    (hfe : getKey d "+force_eval" = some (CVal.arr [CVal.obj fe]))
    (hdft : getKey fe "+dft" = some (CVal.obj dft))
    (hg : getKey d "+global" = some (CVal.obj g))
    (hdip : get_dipole_moment_array dipFrames (ints.map nameOf) out =
      Except.ok dipArr)
    (hvol : get_volume_array logCells au2A (ints.map nameOf) out =
      Except.ok volArr)
    (hp : (ints.map nameOf)[n]? = some p)
    (hv : dipArr[n]? = some v) (hw : volArr[n]? = some w) :
    (gen_series_calc_efield d ints df pol fil periodic eps fn out extra
        restart).2 = Except.ok (ints.map (fun i => "efield_" ++ format6f i))
    ∧ (ints.map (fun i => "efield_" ++ format6f i)).length = ints.length
    ∧ (gen_task_list cmd (ints.map nameOf) extraf).map Task.task_work_path =
        ints.map nameOf
    ∧ (gen_task_list cmd (ints.map nameOf) extraf).length = ints.length
    ∧ readDipole dipFrames out p = Except.ok v
    ∧ readVolume logCells au2A out p = Except.ok w := by
  obtain ⟨d2, fe2, dft2, g2, heq, -, -, -, -, -⟩ :=
    gen_series_calc_efield_eq d fe dft g ints df pol fil periodic eps fn out
      extra restart hfe hdft hg
  refine ⟨?_, by simp, ?_, by simp [gen_task_list],
    collect_nth _ _ _ _ _ _ hdip hp hv, collect_nth _ _ _ _ _ _ hvol hp hw⟩
  · rw [heq]
    exact rfl
  · simp [gen_task_list, List.map_map, Function.comp]

/-- The template dictionary shared by the concrete witnesses: one FORCE_EVAL
block with an empty DFT section, plus a GLOBAL section. -/
def tmplDft : Dict := []

/-- The single FORCE_EVAL block of the witness template. -/
def tmplFe : Dict := [("+dft", CVal.obj tmplDft)]

/-- The GLOBAL section of the witness template. -/
def tmplG : Dict := [("run_type", CVal.str "MD")]

/-- The witness template. -/
def tmplD : Dict :=
  [("+global", CVal.obj tmplG), ("+force_eval", CVal.arr [CVal.obj tmplFe])]

/-- Parsed dipole frames for the claim-C2 witness. -/
def c2Frames : List String → List (List ℚ) := fun _ => [[5, 6, 7, 8]]

theorem c2_volume_read :
    get_volume_array logCellsW 2 (([(0 : ℚ), mkRat 1 1000]).map nameOf) ["wd"]
      = Except.ok [3, 3] := by
  norm_num [get_volume_array, collect, readVolume, det3, logCellsW, cellW]

/-- Witness for claim C2 at the sweep `[0, 0.001]`, checked at index 1. -/
theorem sweep_order_preserved_witness :
    getKey tmplD "+force_eval" = some (CVal.arr [CVal.obj tmplFe])
    ∧ getKey tmplFe "+dft" = some (CVal.obj tmplDft)
    ∧ getKey tmplD "+global" = some (CVal.obj tmplG)
    ∧ get_dipole_moment_array c2Frames (([(0 : ℚ), mkRat 1 1000]).map nameOf)
        ["wd"] = Except.ok [8, 8]
    ∧ get_volume_array logCellsW 2 (([(0 : ℚ), mkRat 1 1000]).map nameOf)
        ["wd"] = Except.ok [3, 3]
    ∧ (([(0 : ℚ), mkRat 1 1000]).map nameOf)[1]? = some "efield_0.001000"
    ∧ ([(8 : ℚ), 8])[1]? = some 8
    ∧ ([(3 : ℚ), 3])[1]? = some 3
    ∧ ((gen_series_calc_efield tmplD [(0 : ℚ), mkRat 1 1000] false [1] [1]
          true "optical" "m" ["wd"] [] none).2 =
        Except.ok (([(0 : ℚ), mkRat 1 1000]).map
          (fun i => "efield_" ++ format6f i))
      ∧ (([(0 : ℚ), mkRat 1 1000]).map
          (fun i => "efield_" ++ format6f i)).length =
          ([(0 : ℚ), mkRat 1 1000] : List ℚ).length
      ∧ (gen_task_list "cp2k" (([(0 : ℚ), mkRat 1 1000]).map nameOf) []).map
          Task.task_work_path = ([(0 : ℚ), mkRat 1 1000]).map nameOf
      ∧ (gen_task_list "cp2k" (([(0 : ℚ), mkRat 1 1000]).map nameOf) []).length =
          ([(0 : ℚ), mkRat 1 1000] : List ℚ).length
      ∧ readDipole c2Frames ["wd"] "efield_0.001000" = Except.ok 8
      ∧ readVolume logCellsW 2 ["wd"] "efield_0.001000" = Except.ok 3) :=
  ⟨rfl, rfl, rfl, rfl, c2_volume_read, rfl, rfl, rfl,
    sweep_order_preserved tmplD tmplFe tmplDft tmplG [(0 : ℚ), mkRat 1 1000]
      false [1] [1] true "optical" "m" ["wd"] [] none "cp2k" [] c2Frames
      logCellsW 2 [8, 8] [3, 3] 1 "efield_0.001000" 8 3 rfl rfl rfl rfl
      c2_volume_read rfl rfl rfl⟩

/-- Claim C7: `add_efield_input` is idempotent on well-formed single-
FORCE_EVAL configurations (running it a second time with the same arguments
on its own output is a no-op); consequently, within the sweep loop of
`gen_series_calc_efield`, the `+periodic_efield` block of the Nth generated
input depends only on the Nth intensity (and the fixed flag/vector
arguments), not on earlier iterations. -/
theorem add_efield_input_idempotent (d fe dft g : Dict) (i : ℚ) (df : Bool)
    (pol fil : List ℚ) (ints : List ℚ) (periodic : Bool) (eps fn : String)
    (out : List String) (extra : List (List String))
    (restart : Option (List String))
    (hfe : getKey d "+force_eval" = some (CVal.arr [CVal.obj fe]))
    (hdft : getKey fe "+dft" = some (CVal.obj dft))
    (hg : getKey d "+global" = some (CVal.obj g)) :
    (match add_efield_input d i df pol fil with
     | Except.ok d' => add_efield_input d' i df pol fil
     | Except.error e => Except.error e) = add_efield_input d i df pol fil
    ∧ (writtenConfigs (gen_series_calc_efield d ints df pol fil periodic eps
        fn out extra restart).1).map getEfieldBlock =
      ints.map (fun j => some (CVal.obj (efieldObj j df pol fil))) := by
  constructor
  · have hfe' : getKey (withEfield d fe dft i df pol fil) "+force_eval" =
        some (CVal.arr [CVal.obj (setKey fe "+dft" (CVal.obj
          (setKey dft "+periodic_efield" (CVal.obj (efieldObj i df pol fil)))))]) := by
      simp [withEfield]
    have h2 := add_efield_input_eq (withEfield d fe dft i df pol fil) _ _ i df
      pol fil hfe' (getKey_setKey_self fe "+dft" _)
    rw [add_efield_input_eq d fe dft i df pol fil hfe hdft]
    simp only [h2, withEfield_withEfield]
  · obtain ⟨d2, fe2, dft2, g2, heq, -, -, -, -, -⟩ :=
      gen_series_calc_efield_eq d fe dft g ints df pol fil periodic eps fn out
        extra restart hfe hdft hg
    have h1 : (gen_series_calc_efield d ints df pol fil periodic eps fn out
        extra restart).1 =
        (ints.map (iterEffects d2 fe2 dft2 df pol fil out extra)).flatten := by
      rw [heq]
    rw [h1, writtenConfigs_sweep, List.map_map]
    exact List.map_congr_left (fun j _ => by
      simp [Function.comp, getEfieldBlock_withEfield])

/-- Witness for claim C7 on the witness template, intensity 0, sweep [0]. -/
theorem add_efield_input_idempotent_witness :
    getKey tmplD "+force_eval" = some (CVal.arr [CVal.obj tmplFe])
    ∧ getKey tmplFe "+dft" = some (CVal.obj tmplDft)
    ∧ getKey tmplD "+global" = some (CVal.obj tmplG)
    ∧ ((match add_efield_input tmplD 0 false [1] [1] with
        | Except.ok d' => add_efield_input d' 0 false [1] [1]
        | Except.error e => Except.error e) =
          add_efield_input tmplD 0 false [1] [1]
      ∧ (writtenConfigs (gen_series_calc_efield tmplD [(0 : ℚ)] false [1] [1]
          true "static" "m" ["wd"] [] none).1).map getEfieldBlock =
        ([(0 : ℚ)]).map (fun j => some (CVal.obj (efieldObj j false [1] [1])))) :=
  ⟨rfl, rfl, rfl,
    add_efield_input_idempotent tmplD tmplFe tmplDft tmplG 0 false [1] [1]
      [(0 : ℚ)] true "static" "m" ["wd"] [] none rfl rfl rfl⟩

/-- Claim C10: any `eps_type` other than `"optical"` and `"static"` is
silently accepted: `gen_series_calc_efield` raises no error, sets no run
type, and every generated input carries the template's pre-existing
`run_type` (if any) unchanged. -/
theorem invalid_eps_type_silently_accepted (d fe dft g : Dict)
    (ints : List ℚ) (df : Bool) (pol fil : List ℚ) (periodic : Bool)
    (eps fn : String) (out : List String) (extra : List (List String))
    (restart : Option (List String))
    (hfe : getKey d "+force_eval" = some (CVal.arr [CVal.obj fe]))
    (hdft : getKey fe "+dft" = some (CVal.obj dft))
    (hg : getKey d "+global" = some (CVal.obj g))
    (h1 : eps ≠ "optical") (h2 : eps ≠ "static") :
    (gen_series_calc_efield d ints df pol fil periodic eps fn out extra
        restart).2 = Except.ok (ints.map nameOf)
    ∧ (writtenConfigs (gen_series_calc_efield d ints df pol fil periodic eps
        fn out extra restart).1).map getRunType =
      ints.map (fun _ => getRunType d) := by
  obtain ⟨d2, fe2, dft2, g2, heq, hgl, hinv, -, -, -⟩ :=
    gen_series_calc_efield_eq d fe dft g ints df pol fil periodic eps fn out
      extra restart hfe hdft hg
  obtain rfl : g2 = g := hinv h1 h2
  constructor
  · rw [heq]
  · have he : (gen_series_calc_efield d ints df pol fil periodic eps fn out
        extra restart).1 =
        (ints.map (iterEffects d2 fe2 dft2 df pol fil out extra)).flatten := by
      rw [heq]
    rw [he, writtenConfigs_sweep, List.map_map]
    refine List.map_congr_left (fun j _ => ?_)
    show getRunType (withEfield d2 fe2 dft2 j df pol fil) = getRunType d
    rw [getRunType_withEfield]
    simp [getRunType, hgl, hg]

/-- Witness for claim C10 with the unknown response mode `"adiabatic"`. -/
theorem invalid_eps_type_silently_accepted_witness :
    getKey tmplD "+force_eval" = some (CVal.arr [CVal.obj tmplFe])
    ∧ getKey tmplFe "+dft" = some (CVal.obj tmplDft)
    ∧ getKey tmplD "+global" = some (CVal.obj tmplG)
    ∧ ("adiabatic" : String) ≠ "optical"
    ∧ ("adiabatic" : String) ≠ "static"
    ∧ ((gen_series_calc_efield tmplD [(0 : ℚ)] false [1] [1] true "adiabatic"
          "m" ["wd"] [] none).2 = Except.ok (([(0 : ℚ)]).map nameOf)
      ∧ (writtenConfigs (gen_series_calc_efield tmplD [(0 : ℚ)] false [1] [1]
          true "adiabatic" "m" ["wd"] [] none).1).map getRunType =
        ([(0 : ℚ)]).map (fun _ => getRunType tmplD)) :=
  ⟨rfl, rfl, rfl, by decide, by decide,
    invalid_eps_type_silently_accepted tmplD tmplFe tmplDft tmplG [(0 : ℚ)]
      false [1] [1] true "adiabatic" "m" ["wd"] [] none rfl rfl rfl
      (by decide) (by decide)⟩

theorem calc_diel_unfolded (dipFrames : List String → List (List ℚ))
    (logCells : List String → List Cell) (au2A : ℚ) (piR : ℝ)
    (d fe dft g : Dict) (ints : List ℚ) (df : Bool) (pol fil : List ℚ)
    (eps : String) (out : List String) (cmd : String)
    (extra extraFCF : List (List String)) (restart : Option (List String))
    (dry : Bool)
    (hfe : getKey d "+force_eval" = some (CVal.arr [CVal.obj fe]))
    (hdft : getKey fe "+dft" = some (CVal.obj dft))
    (hg : getKey d "+global" = some (CVal.obj g)) :
    ∃ d2 fe2 dft2 tail,
      (calc_diel dipFrames logCells au2A piR d ints df pol fil eps out cmd
          extra extraFCF restart dry).effects =
        (ints.map (iterEffects d2 fe2 dft2 df pol fil out extra)).flatten
          ++ copy_file_list (match restart with
              | some r => extraFCF ++ [r]
              | none => extraFCF) out ++ tail
      ∧ writtenConfigs tail = []
      ∧ writtenPaths tail = []
      ∧ (calc_diel dipFrames logCells au2A piR d ints df pol fil eps out cmd
          extra extraFCF restart dry).fcf_final =
          (match restart with
           | some r => extraFCF ++ [r]
           | none => extraFCF)
      ∧ (∀ r, restart = some r →
          getKey dft2 "wfn_restart_file_name" =
            some (CVal.str ("../" ++ r.getLastD ""))) := by
  obtain ⟨d2, fe2, dft2, g2, heq, -, -, -, -, hwfn⟩ :=
    gen_series_calc_efield_eq d fe dft g ints df pol fil true eps
      ("=" ++ DIPOLE_MOMENT_FILE) out extra restart hfe hdft hg
  cases dry with
  | false =>
    refine ⟨d2, fe2, dft2, [], ?_, rfl, rfl, ?_, hwfn⟩ <;>
      simp [calc_diel, heq]
  | true =>
    cases hdips : get_dipole_moment_array dipFrames (ints.map nameOf) out with
    | error e =>
      refine ⟨d2, fe2, dft2, [], ?_, rfl, rfl, ?_, hwfn⟩ <;>
        simp [calc_diel, heq, hdips]
    | ok dipA =>
      cases hvols : get_volume_array logCells au2A (ints.map nameOf) out with
      | error e =>
        refine ⟨d2, fe2, dft2, [], ?_, rfl, rfl, ?_, hwfn⟩ <;>
          simp [calc_diel, heq, hdips, hvols]
      | ok volA =>
        refine ⟨d2, fe2, dft2,
          [Effect.savetxt "dipole_moment_array.dat",
           Effect.savetxt "intensity_array.dat",
           Effect.savetxt "volume_array.dat"], ?_, rfl, rfl, ?_, hwfn⟩ <;>
          simp [calc_diel, heq, hdips, hvols]

/-- Claim C8: when a restart-state path is supplied, every generated input's
`wfn_restart_file_name` is `"../"` followed by the restart file's base name —
regardless of the rest of the path given by the caller — and `calc_diel`
copies the restart file into the work-base directory, which is exactly one
directory level above every generated `input.inp`, so the copy lands at the
referenced location. -/
theorem restart_wfn_one_level_above (dipFrames : List String → List (List ℚ))
    (logCells : List String → List Cell) (au2A : ℚ) (piR : ℝ)
    (d fe dft g : Dict) (ints : List ℚ) (df : Bool) (pol fil : List ℚ)
    (eps : String) (out : List String) (cmd : String)
    (extra extraFCF : List (List String)) (r : List String) (dry : Bool)
    (hfe : getKey d "+force_eval" = some (CVal.arr [CVal.obj fe]))
    (hdft : getKey fe "+dft" = some (CVal.obj dft))
    (hg : getKey d "+global" = some (CVal.obj g)) :
    (writtenConfigs (calc_diel dipFrames logCells au2A piR d ints df pol fil
        eps out cmd extra extraFCF (some r) dry).effects).map
      (fun c => getDftField c "wfn_restart_file_name") =
      ints.map (fun _ => some (CVal.str ("../" ++ r.getLastD "")))
    ∧ writtenPaths (calc_diel dipFrames logCells au2A piR d ints df pol fil
        eps out cmd extra extraFCF (some r) dry).effects =
      ints.map (fun i => out ++ [nameOf i, "input.inp"])
    ∧ Effect.copyTo r (out ++ [r.getLastD ""]) ∈
        (calc_diel dipFrames logCells au2A piR d ints df pol fil eps out cmd
          extra extraFCF (some r) dry).effects
    ∧ ∀ p ∈ writtenPaths (calc_diel dipFrames logCells au2A piR d ints df pol
        fil eps out cmd extra extraFCF (some r) dry).effects,
        p.dropLast.dropLast ++ [r.getLastD ""] = out ++ [r.getLastD ""] := by
  obtain ⟨d2, fe2, dft2, tail, heff, hwc, hwp, -, hwfn⟩ :=
    calc_diel_unfolded dipFrames logCells au2A piR d fe dft g ints df pol fil
      eps out cmd extra extraFCF (some r) dry hfe hdft hg
  have hwfn' := hwfn r rfl
  have hpaths : writtenPaths (calc_diel dipFrames logCells au2A piR d ints df
      pol fil eps out cmd extra extraFCF (some r) dry).effects =
      ints.map (fun i => out ++ [nameOf i, "input.inp"]) := by
    rw [heff, writtenPaths_append, writtenPaths_append, writtenPaths_sweep,
      writtenPaths_copy_file_list, hwp]
    simp
  refine ⟨?_, hpaths, ?_, ?_⟩
  · rw [heff, writtenConfigs_append, writtenConfigs_append,
      writtenConfigs_sweep, writtenConfigs_copy_file_list, hwc]
    simp only [List.append_nil, List.map_map]
    refine List.map_congr_left (fun j _ => ?_)
    show getDftField (withEfield d2 fe2 dft2 j df pol fil)
      "wfn_restart_file_name" = some (CVal.str ("../" ++ r.getLastD ""))
    rw [getDftField_withEfield,
      getKey_setKey_ne _ _ _ _
        (by decide : ("wfn_restart_file_name" : String) ≠ "+periodic_efield"),
      hwfn']
  · rw [heff]
    refine List.mem_append_left _ (List.mem_append_right _ ?_)
    exact List.mem_map.2 ⟨r, by simp, rfl⟩
  · intro p hp
    rw [hpaths] at hp
    obtain ⟨i, -, rfl⟩ := List.mem_map.1 hp
    have h2 : out ++ [nameOf i, "input.inp"] = (out ++ [nameOf i]) ++ ["input.inp"] := by
      simp
    rw [h2, List.dropLast_concat, List.dropLast_concat]

/-- Witness for claim C8: restart path `up/restart.wfn`, work base `wd`,
sweep `[0]`. -/
theorem restart_wfn_one_level_above_witness :
    getKey tmplD "+force_eval" = some (CVal.arr [CVal.obj tmplFe])
    ∧ getKey tmplFe "+dft" = some (CVal.obj tmplDft)
    ∧ getKey tmplD "+global" = some (CVal.obj tmplG)
    ∧ ((writtenConfigs (calc_diel c2Frames logCellsW 2 0 tmplD [(0 : ℚ)] false
          [1] [1] "optical" ["wd"] "cp2k" [] [] (some ["up", "restart.wfn"])
          false).effects).map
        (fun c => getDftField c "wfn_restart_file_name") =
        ([(0 : ℚ)]).map (fun _ => some (CVal.str
          ("../" ++ (["up", "restart.wfn"] : List String).getLastD "")))
      ∧ writtenPaths (calc_diel c2Frames logCellsW 2 0 tmplD [(0 : ℚ)] false
          [1] [1] "optical" ["wd"] "cp2k" [] [] (some ["up", "restart.wfn"])
          false).effects =
        ([(0 : ℚ)]).map (fun i => ["wd"] ++ [nameOf i, "input.inp"])
      ∧ Effect.copyTo ["up", "restart.wfn"]
          (["wd"] ++ [(["up", "restart.wfn"] : List String).getLastD ""]) ∈
          (calc_diel c2Frames logCellsW 2 0 tmplD [(0 : ℚ)] false [1] [1]
            "optical" ["wd"] "cp2k" [] [] (some ["up", "restart.wfn"])
            false).effects
      ∧ ∀ p ∈ writtenPaths (calc_diel c2Frames logCellsW 2 0 tmplD [(0 : ℚ)]
          false [1] [1] "optical" ["wd"] "cp2k" [] []
          (some ["up", "restart.wfn"]) false).effects,
          p.dropLast.dropLast ++
              [(["up", "restart.wfn"] : List String).getLastD ""] =
            ["wd"] ++ [(["up", "restart.wfn"] : List String).getLastD ""]) :=
  ⟨rfl, rfl, rfl,
    restart_wfn_one_level_above c2Frames logCellsW 2 0 tmplD tmplFe tmplDft
      tmplG [(0 : ℚ)] false [1] [1] "optical" ["wd"] "cp2k" [] []
      ["up", "restart.wfn"] false rfl rfl rfl⟩

/-- Claim C9: `calc_diel` appends the restart path to the very list object
passed as `extra_forward_common_files` (the caller's list ends the call with
the restart path appended); with the parameter left at its default, the one
shared default list object is the one mutated, so the appended path persists
into subsequent calls that also use the default: modelling the CPython
default-argument object by threading its contents from call to call, a
second default-argument call ends with both restart paths in the list. -/
theorem forward_common_files_default_aliasing
    (dipFrames : List String → List (List ℚ))
    (logCells : List String → List Cell) (au2A : ℚ) (piR : ℝ)
    (d fe dft g : Dict) (ints : List ℚ) (df : Bool) (pol fil : List ℚ)
    (eps : String) (out : List String) (cmd : String)
    (extra : List (List String)) (l : List (List String))
    (r r1 r2 : List String) (dry : Bool)
    (hfe : getKey d "+force_eval" = some (CVal.arr [CVal.obj fe]))
    (hdft : getKey fe "+dft" = some (CVal.obj dft))
    (hg : getKey d "+global" = some (CVal.obj g)) :
    (calc_diel dipFrames logCells au2A piR d ints df pol fil eps out cmd
        extra l (some r) dry).fcf_final = l ++ [r]
    ∧ (calc_diel dipFrames logCells au2A piR d ints df pol fil eps out cmd
        extra l none dry).fcf_final = l
    ∧ (calc_diel dipFrames logCells au2A piR d ints df pol fil eps out cmd
        extra
        (calc_diel dipFrames logCells au2A piR d ints df pol fil eps out cmd
          extra defaultExtraForwardCommonFiles (some r1) dry).fcf_final
        (some r2) dry).fcf_final = [r1, r2] := by
  have h1 : ∀ (L : List (List String)) (restart : Option (List String)),
      (calc_diel dipFrames logCells au2A piR d ints df pol fil eps out cmd
          extra L restart dry).fcf_final =
        (match restart with
         | some rr => L ++ [rr]
         | none => L) := by
    intro L restart
    obtain ⟨-, -, -, -, -, -, -, hfcf, -⟩ :=
      calc_diel_unfolded dipFrames logCells au2A piR d fe dft g ints df pol
        fil eps out cmd extra L restart dry hfe hdft hg
    exact hfcf
  refine ⟨h1 l (some r), h1 l none, ?_⟩
  rw [h1 _ (some r2), h1 defaultExtraForwardCommonFiles (some r1)]
  rfl

/-- Witness for claim C9. -/
theorem forward_common_files_default_aliasing_witness :
    getKey tmplD "+force_eval" = some (CVal.arr [CVal.obj tmplFe])
    ∧ getKey tmplFe "+dft" = some (CVal.obj tmplDft)
    ∧ getKey tmplD "+global" = some (CVal.obj tmplG)
    ∧ ((calc_diel c2Frames logCellsW 2 0 tmplD [(0 : ℚ)] false [1] [1]
          "optical" ["wd"] "cp2k" [] [["a.dat"]] (some ["r.wfn"])
          false).fcf_final = [["a.dat"]] ++ [["r.wfn"]]
      ∧ (calc_diel c2Frames logCellsW 2 0 tmplD [(0 : ℚ)] false [1] [1]
          "optical" ["wd"] "cp2k" [] [["a.dat"]] none false).fcf_final =
          [["a.dat"]]
      ∧ (calc_diel c2Frames logCellsW 2 0 tmplD [(0 : ℚ)] false [1] [1]
          "optical" ["wd"] "cp2k" []
          (calc_diel c2Frames logCellsW 2 0 tmplD [(0 : ℚ)] false [1] [1]
            "optical" ["wd"] "cp2k" [] defaultExtraForwardCommonFiles
            (some ["r1.wfn"]) false).fcf_final
          (some ["r2.wfn"]) false).fcf_final = [["r1.wfn"], ["r2.wfn"]]) :=
  ⟨rfl, rfl, rfl,
    forward_common_files_default_aliasing c2Frames logCellsW 2 0 tmplD tmplFe
      tmplDft tmplG [(0 : ℚ)] false [1] [1] "optical" ["wd"] "cp2k" []
      [["a.dat"]] ["r.wfn"] ["r1.wfn"] ["r2.wfn"] false rfl rfl rfl⟩

/-- Dipole frames for the claim-C1 evaluation. -/
def envDipole : List String → List (List ℚ) := fun _ => [[0, 0, 0, 0]]

/-- Log cells for the claim-C1 evaluation. -/
def envCells : List String → List Cell := fun _ => [fun _ _ => 1]

/-- Claim C1 (code bug): lines 253-256 assign the local `exit_on_submit` only
under `if dry_run:`, so for every invocation with `dry_run = False` the
orchestration itself raises UnboundLocalError at the submission call instead
of executing the jobs and proceeding to result collection and regression;
with `dry_run = True` execution does reach the dispatcher call, which
short-circuits without executing any job, exactly as the claim says. -/
theorem calc_diel_dry_run_unbound_local :
    (calc_diel envDipole envCells 1 0 tmplD [] false [1] [1] "optical" ["wd"]
      "cp2k" [] [] none false).result = Except.error PyErr.unboundLocalError
    ∧ Except.map CalcDielOk.runOutcome
        (calc_diel envDipole envCells 1 0 tmplD [] false [1] [1] "optical"
          ["wd"] "cp2k" [] [] none true).result =
      Except.ok RunOutcome.dryRunShortCircuit :=
  ⟨rfl, rfl⟩

end ECT
